import Mathlib

/-!
# hdl_viewer_simple: the cloud hand-off, the draw loop and the command line

A verification development for `visualization/tools/hdl_viewer_simple.cpp`.

The file has three parts of original logic, each embedded below:

* `main` and `usage` (lines 168-198): the command line;
* `SimpleHDLViewer::cloud_callback` and `SimpleHDLViewer::run` (lines 87-156): the
  single-slot hand-off of the newest cloud and the draw loop.  It is embedded twice:
  as a sequential model in which each critical section is one atomic operation
  (`cloud_callback`, `take`, `body`, `loop`, `run`), and as a statement-level
  interleaving model of the threads around `cloud_mutex_` (`System`, `step`);
* `keyboard_callback` and `mouse_callback` (lines 94-110).

A `CloudConstPtr` is a shared pointer that may be null: it is an `Option Cloud`.
Calls into the viewer and the grabber are recorded in a trace of `Call`s; what the
outside world answers (whether the window was closed, whether `try_lock` found the
mutex free, what `updatePointCloud` returned, whether the grabber is running) is an
input of the model.  `FPS_CALC` expands to an empty statement (`SHOW_FPS` is 0).
-/

namespace HdlViewerSimple

/-! ## Command line (lines 168-198) -/

/-- The two instantiations of `SimpleHDLViewer<PointType>` that `main` can run. -/
inductive PointType where
  | PointXYZ
  | PointXYZRGB
  deriving DecidableEq, Repr

/-- The two helpers of `pcl/console/parse.h` that `main` calls.  They are not part of
the source file, so `main` takes them as a parameter.  `find_switch argv name` is the
result of `pcl::console::find_switch (argc, argv, name)`; `parse_argument argv name` is
the string that `pcl::console::parse_argument (argc, argv, name, val)` stores into
`val`, or `none` when it leaves `val` as it was. -/
structure Console where
  find_switch : List String → String → Bool
  parse_argument : List String → String → Option String

/-- Modelled from the spec: the loop of `pcl::console::find_argument` (declared in
`pcl/console/parse.h`, its body is not in the source file), which the spec only calls
trivial command line parsing: scan the entries from index `i` on and return the index of
the first one equal to `name`, or `-1`. -/
def find_argument_from (i : Nat) : List String → String → Int
  | [], _ => -1
  | a :: rest, name => if a = name then (i : Int) else find_argument_from (i + 1) rest name

/-- Modelled from the spec: `pcl::console::find_argument` (not in the source file): the
scan starts at index 1, after the program name `argv[0]`. -/
def find_argument (argv : List String) (name : String) : Int :=
  find_argument_from 1 argv.tail name

/-- Modelled from the spec: `pcl::console::find_switch` (not in the source file): the
switch is present when `find_argument` finds it. -/
def find_switch (argv : List String) (name : String) : Bool :=
  find_argument argv name != -1

/-- Modelled from the spec: `pcl::console::parse_argument` for a string value (not in
the source file): the entry that follows the option name, when there is one. -/
def parse_argument (argv : List String) (name : String) : Option String :=
  let index := find_argument argv name + 1
  if 0 < index ∧ index < (argv.length : Int) then argv.get? index.toNat else none

/-- The concrete command line helpers, used to evaluate `main` on concrete argument
vectors. -/
def pclConsole : Console := ⟨find_switch, parse_argument⟩

/-- The comparison `boost::iequals` in the classic locale: equal after mapping the
letters a-z to upper case. -/
def iequals (a b : String) : Bool :=
  a.data.map Char.toUpper == b.data.map Char.toUpper

/-- The text written by `usage` (lines 168-173); `argv[0]` is the head of `argv`. -/
def usage (argv : List String) : String :=
  "usage: " ++ argv.headD ""
    ++ " [-hdlCalibration <path-to-calibration-file>] [-pcapFile <path-to-pcap-file>] [-h | --help] [-format XYZ|XYZRGB]"
    ++ "\n"
    ++ argv.headD "" ++ " -h | --help : shows this help" ++ "\n"

/-- What an execution of `main` did: the text it wrote itself, its return value, the
arguments `(hdlCalibration, pcapFile)` of the grabber when one was constructed, and the
viewers that were constructed and run, in order. -/
structure MainResult where
  stdout : String
  status : Int
  grabber : Option (String × String)
  viewers : List PointType
  deriving DecidableEq, Repr

/-- The function `main` (lines 175-198). -/
def main (con : Console) (argv : List String) : MainResult :=
  if con.find_switch argv "-h" || con.find_switch argv "--help" then
    ⟨usage argv, 0, none, []⟩
  else
    let hdlCalibration := (con.parse_argument argv "-calibrationFile").getD ""
    let pcapFile := (con.parse_argument argv "-pcapFile").getD ""
    let format := (con.parse_argument argv "-format").getD "XYZ"
    if iequals format "XYZ" then
      ⟨"", 0, some (hdlCalibration, pcapFile), [PointType.PointXYZ]⟩
    else if iequals format "XYZRGB" then
      ⟨"", 0, some (hdlCalibration, pcapFile), [PointType.PointXYZRGB]⟩
    else
      ⟨"", 0, some (hdlCalibration, pcapFile), []⟩

/-! ## The hand-off and the draw loop, sequential model (lines 87-92 and 112-156) -/

/-- A call made by `run` on the viewer `cloud_viewer_`, on the grabber `grabber_`, on the
connection returned by `registerCallback`, or the sleep at the end of the loop body.
Numeric arguments are the literals of the source; `result` is the value the call
returned.  `registerMouseCallback` and `registerKeyboardCallback` are the viewer's
registration calls (they occur in the source file only inside comments). -/
inductive Call (Cloud : Type) where
  | addCoordinateSystem (scale : Nat)
  | setBackgroundColor (r g b : Nat)
  | initCameraParameters
  | setCameraPosition (posX posY posZ upX upY upZ viewport : Nat)
  | setCameraClipDistances (near far : Nat)
  | registerMouseCallback
  | registerKeyboardCallback
  | registerCallback
  | start
  | wasStopped (result : Bool)
  | updatePointCloud (cloud : Cloud) (id : String) (result : Bool)
  | addPointCloud (cloud : Cloud) (id : String)
  | spinOnce
  | isRunning (result : Bool)
  | spin
  | sleep (microseconds : Nat)
  | stop
  | disconnect
  deriving DecidableEq, Repr

/-- The data member `cloud_` of `SimpleHDLViewer` (line 165), the single slot of the
hand-off.  The other members are handles to the viewer, the grabber and the mutexes. -/
structure SimpleHDLViewer (Cloud : Type) where
  cloud_ : Option Cloud
  deriving DecidableEq, Repr

/-- What the outside world contributes to one evaluation of the loop condition and, when
the loop goes on, to one execution of the loop body:
`stopped` is the answer of `wasStopped ()` (line 126); `arrivals` are the clouds passed
to `cloud_callback` calls that complete before this iteration's `try_lock`, in order;
`lockFree` is the answer of `try_lock ()` (line 130); `updateOk` is the answer of
`updatePointCloud` (line 140) when it is called; `running` is the answer of
`isRunning ()` (line 146). -/
structure Tick (Cloud : Type) where
  stopped : Bool
  arrivals : List (Option Cloud)
  lockFree : Bool
  updateOk : Bool
  running : Bool
  deriving DecidableEq, Repr

variable {Cloud : Type}

/-- The callback `cloud_callback` (lines 87-92), as one atomic operation on the slot:
under the lock, `cloud_ = cloud`. -/
def cloud_callback (v : SimpleHDLViewer Cloud) (cloud : Option Cloud) : SimpleHDLViewer Cloud :=
  { v with cloud_ := cloud }

/-- Lines 127-133 of `run`: the local `cloud` starts null; when `try_lock` succeeds it
is swapped with `cloud_`.  Returns the new state and the local `cloud`. -/
def take (v : SimpleHDLViewer Cloud) (lockFree : Bool) : SimpleHDLViewer Cloud × Option Cloud :=
  let cloud : Option Cloud := none
  if lockFree then ({ v with cloud_ := cloud }, v.cloud_) else (v, cloud)

/-- Lines 135-144 of `run`: the calls made on the viewer for the local `cloud`. -/
def draw (cloud : Option Cloud) (updateOk : Bool) : List (Call Cloud) :=
  match cloud with
  | none => []
  | some c =>
    [Call.updatePointCloud c "HDL" updateOk]
      ++ (if !updateOk then [Call.addPointCloud c "HDL"] else [])
      ++ [Call.spinOnce]

/-- The local `cloud` of the iteration that runs under tick `t` from state `v`. -/
def taken (v : SimpleHDLViewer Cloud) (t : Tick Cloud) : Option Cloud :=
  (take (t.arrivals.foldl cloud_callback v) t.lockFree).2

/-- One execution of the loop body (lines 127-150): the callbacks that arrive first, the
take, the drawing step, the `isRunning` test with `spin`, and the sleep.  Returns the new
state and the calls made. -/
def body (v : SimpleHDLViewer Cloud) (t : Tick Cloud) : SimpleHDLViewer Cloud × List (Call Cloud) :=
  let delivered := t.arrivals.foldl cloud_callback v
  let r := take delivered t.lockFree
  (r.1,
    draw r.2 t.updateOk
      ++ [Call.isRunning t.running]
      ++ (if !t.running then [Call.spin] else [])
      ++ [Call.sleep 100])

/-- Several loop iterations in a row, each one an evaluation of the loop condition with
`wasStopped ()` answering false followed by the loop body: the state after them and the
calls made. -/
def iterations (v : SimpleHDLViewer Cloud) :
    List (Tick Cloud) → SimpleHDLViewer Cloud × List (Call Cloud)
  | [] => (v, [])
  | t :: ts =>
    let r := body v t
    let rest := iterations r.1 ts
    (rest.1, Call.wasStopped false :: (r.2 ++ rest.2))

/-- The `while` loop of `run` (lines 126-151) under a schedule of ticks: `none` when the
schedule ends before `wasStopped ()` has answered true (the loop is still running),
otherwise the state and the calls made up to and including the final `wasStopped`. -/
def loop (v : SimpleHDLViewer Cloud) :
    List (Tick Cloud) → Option (SimpleHDLViewer Cloud × List (Call Cloud))
  | [] => none
  | t :: ts =>
    if t.stopped then some (v, [Call.wasStopped true])
    else
      let r := body v t
      (loop r.1 ts).map fun out => (out.1, Call.wasStopped false :: (r.2 ++ out.2))

/-- Lines 113-117 of `run`: the viewer set-up.  Lines 118-119 are comments. -/
def setup : List (Call Cloud) :=
  [Call.addCoordinateSystem 300, Call.setBackgroundColor 0 0 0, Call.initCameraParameters,
   Call.setCameraPosition 0 0 3000 0 1 0 0, Call.setCameraClipDistances 0 5000]

/-- The method `run` (lines 112-156) under a schedule of ticks: `none` when the loop has
not ended within the schedule, otherwise the final state and the whole trace of calls. -/
def run (v : SimpleHDLViewer Cloud) (ticks : List (Tick Cloud)) :
    Option (SimpleHDLViewer Cloud × List (Call Cloud)) :=
  (loop v ticks).map fun out =>
    (out.1, setup ++ [Call.registerCallback, Call.start] ++ out.2 ++ [Call.stop, Call.disconnect])

/-- The cloud a call hands to the viewer, if it hands one. -/
def Call.passed : Call Cloud → Option Cloud
  | Call.updatePointCloud c _ _ => some c
  | Call.addPointCloud c _ => some c
  | _ => none

/-- The cloud id a call names, if it names one. -/
def Call.cloudId : Call Cloud → Option String
  | Call.updatePointCloud _ id _ => some id
  | Call.addPointCloud _ id => some id
  | _ => none

/-- Calls of the drawing step: `updatePointCloud`, `addPointCloud` and `spinOnce`. -/
def Call.isDraw : Call Cloud → Bool
  | Call.updatePointCloud _ _ _ => true
  | Call.addPointCloud _ _ => true
  | Call.spinOnce => true
  | _ => false

/-- Calls on the grabber `grabber_` or on the connection `cloud_connection`. -/
def Call.onGrabber : Call Cloud → Bool
  | Call.registerCallback => true
  | Call.start => true
  | Call.isRunning _ => true
  | Call.stop => true
  | Call.disconnect => true
  | _ => false

/-- The registration calls: of an input callback with the viewer, or of the cloud
callback with the grabber. -/
def Call.isRegistration : Call Cloud → Bool
  | Call.registerMouseCallback => true
  | Call.registerKeyboardCallback => true
  | Call.registerCallback => true
  | _ => false

/-- The queries `wasStopped ()`. -/
def Call.isWasStopped : Call Cloud → Bool
  | Call.wasStopped _ => true
  | _ => false

/-- The clouds handed to the viewer by a trace, in order. -/
def passedClouds (tr : List (Call Cloud)) : List Cloud :=
  tr.filterMap Call.passed

/-- The ticks under which the loop body runs: those before the first tick whose
`wasStopped ()` answers true. -/
def iterated (ticks : List (Tick Cloud)) : List (Tick Cloud) :=
  ticks.takeWhile fun t => !t.stopped

/-! ## Keyboard and mouse callbacks (lines 94-110) -/

/-- The fields of `pcl::visualization::KeyboardEvent` that `keyboard_callback` reads:
`getKeyCode ()` (an `unsigned char`), `getKeySym ()` and `keyDown ()`. -/
structure KeyboardEvent where
  keyCode : Fin 256
  keySym : String
  keyDown : Bool
  deriving DecidableEq, Repr

/-- The enumeration `MouseEvent::Type`. -/
inductive MouseType where
  | MouseMove
  | MouseButtonPress
  | MouseButtonRelease
  | MouseScrollDown
  | MouseScrollUp
  | MouseDblClick
  deriving DecidableEq, Repr

/-- The enumeration `MouseEvent::MouseButton`. -/
inductive MouseButton where
  | NoButton
  | LeftButton
  | MiddleButton
  | RightButton
  | VScroll
  deriving DecidableEq, Repr

/-- The fields of `pcl::visualization::MouseEvent` that `mouse_callback` reads. -/
structure MouseEvent where
  type : MouseType
  button : MouseButton
  x : Nat
  y : Nat
  deriving DecidableEq, Repr

/-- The text written by `keyboard_callback` (lines 94-103).  The key code is written
once as a character and once as a number. -/
def keyboard_callback (event : KeyboardEvent) : String :=
  (if event.keyCode ≠ 0 then
      "the key \x27" ++ String.singleton (Char.ofNat event.keyCode.val) ++ "\x27 ("
        ++ toString event.keyCode.val ++ ") was"
    else
      "the special key \x27" ++ event.keySym ++ "\x27 was")
    ++ (if event.keyDown then " pressed" ++ "\n" else " released" ++ "\n")

/-- The text written by `mouse_callback` (lines 105-110). -/
def mouse_callback (mouse_event : MouseEvent) : String :=
  if mouse_event.type = MouseType.MouseButtonPress
      ∧ mouse_event.button = MouseButton.LeftButton then
    toString mouse_event.x ++ " , " ++ toString mouse_event.y ++ "\n"
  else ""

/-- The call that registers a keyboard callback with the viewer. -/
def Call.isKeyboardRegistration : Call Cloud → Bool
  | Call.registerKeyboardCallback => true
  | _ => false

/-- The call that registers a mouse callback with the viewer. -/
def Call.isMouseRegistration : Call Cloud → Bool
  | Call.registerMouseCallback => true
  | _ => false

/-- Modelled from the spec: the viewer window's event dispatch (part of the
visualization module, not in the source file) hands a key event to the keyboard callback
registered with the viewer.  The text this program writes on a key event, given the
calls `run` made, is that of `keyboard_callback` when `run` registered it and empty
otherwise. -/
def onKeyEvent (tr : List (Call Cloud)) (event : KeyboardEvent) : String :=
  if tr.any Call.isKeyboardRegistration then keyboard_callback event else ""

/-- Modelled from the spec: the viewer window's event dispatch for mouse events, as
`onKeyEvent`. -/
def onMouseEvent (tr : List (Call Cloud)) (mouse_event : MouseEvent) : String :=
  if tr.any Call.isMouseRegistration then mouse_callback mouse_event else ""

/-! ## The hand-off, statement-level interleaving model around `cloud_mutex_` -/

/-- A thread: the one that executes `run`, or the `i`-th thread on which the grabber
invokes `cloud_callback`. -/
inductive Thread where
  | consumer
  | producer (i : Nat)
  deriving DecidableEq, Repr

/-- Where a grabber thread stands in `cloud_callback` (lines 87-92). -/
inductive ProducerPc (Cloud : Type) where
  /-- Outside the callback. -/
  | idle
  /-- Line 89: about to construct the `scoped_lock`, which blocks until the mutex is free. -/
  | lock (cloud : Option Cloud)
  /-- Line 90: about to execute `cloud_ = cloud`. -/
  | assign (cloud : Option Cloud)
  /-- Line 92: about to leave the scope, which destroys the `scoped_lock`. -/
  | unlock
  deriving DecidableEq, Repr

/-- Where the thread of `run` stands (lines 126-155). -/
inductive ConsumerPc where
  /-- Line 126: about to evaluate the loop condition. -/
  | loopTest
  /-- Line 130: about to call `try_lock ()`. -/
  | tryLock
  /-- Line 131: about to execute `cloud_.swap (cloud)`. -/
  | swap
  /-- Line 132: about to call `unlock ()`. -/
  | unlock
  /-- Lines 135-144: the drawing step. -/
  | draw
  /-- Lines 146-148: the `isRunning` test. -/
  | isRunning
  /-- Line 150: the sleep. -/
  | sleep
  /-- Lines 153-155: after the loop. -/
  | stop
  /-- Returned from `run`. -/
  | done
  deriving DecidableEq, Repr

/-- The shared state and the position of every thread.  `cloud_mutex_` records the
thread that holds the mutex, `cloud` is the local variable of `run`. -/
structure System (Cloud : Type) where
  cloud_mutex_ : Option Thread
  cloud_ : Option Cloud
  cloud : Option Cloud
  consumer : ConsumerPc
  producer : Nat → ProducerPc Cloud

/-- One scheduling decision: the thread that executes its next statement.  For a grabber
thread, `cloud` is the frame passed if the step enters `cloud_callback`; for the thread
of `run`, `stopped` is the answer of `wasStopped ()` if the step evaluates the loop
condition. -/
inductive Sched (Cloud : Type) where
  | producer (i : Nat) (cloud : Option Cloud)
  | consumer (stopped : Bool)
  deriving DecidableEq, Repr

/-- The thread a scheduling decision runs. -/
def Sched.thread : Sched Cloud → Thread
  | Sched.producer i _ => Thread.producer i
  | Sched.consumer _ => Thread.consumer

/-- The system when `run` reaches its loop: mutex free, `cloud_` null, no callback in
progress. -/
def System.init : System Cloud :=
  ⟨none, none, none, ConsumerPc.loopTest, fun _ => ProducerPc.idle⟩

/-- Move grabber thread `i` to position `pc`. -/
def System.setProducer (s : System Cloud) (i : Nat) (pc : ProducerPc Cloud) :
    Nat → ProducerPc Cloud :=
  fun j => if j = i then pc else s.producer j

/-- The scheduled thread executes its next statement.  A grabber thread that finds the
mutex taken at line 89 stays where it is (it is blocked); a returned `run` stays
returned. -/
def step (s : System Cloud) : Sched Cloud → System Cloud
  | Sched.producer i c =>
    match s.producer i with
    | ProducerPc.idle => { s with producer := s.setProducer i (ProducerPc.lock c) }
    | ProducerPc.lock c0 =>
      if s.cloud_mutex_ = none then
        { s with cloud_mutex_ := some (Thread.producer i),
                 producer := s.setProducer i (ProducerPc.assign c0) }
      else s
    | ProducerPc.assign c0 =>
      { s with cloud_ := c0, producer := s.setProducer i ProducerPc.unlock }
    | ProducerPc.unlock =>
      { s with cloud_mutex_ := none, producer := s.setProducer i ProducerPc.idle }
  | Sched.consumer stopped =>
    match s.consumer with
    | ConsumerPc.loopTest =>
      if stopped then { s with consumer := ConsumerPc.stop }
      else { s with cloud := none, consumer := ConsumerPc.tryLock }
    | ConsumerPc.tryLock =>
      if s.cloud_mutex_ = none then
        { s with cloud_mutex_ := some Thread.consumer, consumer := ConsumerPc.swap }
      else { s with consumer := ConsumerPc.draw }
    | ConsumerPc.swap =>
      { s with cloud_ := s.cloud, cloud := s.cloud_, consumer := ConsumerPc.unlock }
    | ConsumerPc.unlock => { s with cloud_mutex_ := none, consumer := ConsumerPc.draw }
    | ConsumerPc.draw => { s with consumer := ConsumerPc.isRunning }
    | ConsumerPc.isRunning => { s with consumer := ConsumerPc.sleep }
    | ConsumerPc.sleep => { s with consumer := ConsumerPc.loopTest }
    | ConsumerPc.stop => { s with consumer := ConsumerPc.done }
    | ConsumerPc.done => s

/-- The system after a schedule, from `System.init`. -/
def exec (acts : List (Sched Cloud)) : System Cloud :=
  acts.foldl step System.init

/-- A grabber thread is inside the critical section of `cloud_callback`: between the
construction and the destruction of the `scoped_lock`. -/
def ProducerPc.inCritical : ProducerPc Cloud → Bool
  | ProducerPc.assign _ => true
  | ProducerPc.unlock => true
  | _ => false

/-- The thread of `run` is inside its critical section: between a successful
`try_lock ()` and `unlock ()`. -/
def ConsumerPc.inCritical : ConsumerPc → Bool
  | ConsumerPc.swap => true
  | ConsumerPc.unlock => true
  | _ => false

/-- The statement the scheduled thread is about to execute reads or writes the shared
slot `cloud_`: the assignment of line 90 or the swap of line 131. -/
def accessesSlot (s : System Cloud) : Sched Cloud → Bool
  | Sched.producer i _ =>
    match s.producer i with
    | ProducerPc.assign _ => true
    | _ => false
  | Sched.consumer _ =>
    match s.consumer with
    | ConsumerPc.swap => true
    | _ => false

/-- The invariant of the interleaving model: a thread is inside its critical section
exactly when it is the holder of `cloud_mutex_`. -/
def Inv (s : System Cloud) : Prop :=
  (∀ i, (s.producer i).inCritical = true ↔ s.cloud_mutex_ = some (Thread.producer i)) ∧
    (s.consumer.inCritical = true ↔ s.cloud_mutex_ = some Thread.consumer)

/-! ## Theorems: command line -/

/-- The concrete `find_argument_from` answers `-1` exactly when `name` is not among the
scanned entries, and an index from `i` on otherwise. -/
theorem find_argument_from_eq_neg_one (i : Nat) (l : List String) (name : String) :
    find_argument_from i l name = -1 ↔ name ∉ l := by
  induction l generalizing i with
  | nil => simp [find_argument_from]
  | cons a rest ih =>
    by_cases h : a = name
    · subst h
      simp only [find_argument_from, if_true, List.mem_cons, true_or, not_true_eq_false, iff_false]
      omega
    · have h2 : ¬ name = a := fun e => h e.symm
      simp [find_argument_from, h, h2, ih]

/-- The concrete `find_switch` reports a switch exactly when it occurs after the program
name. -/
theorem find_switch_iff (argv : List String) (name : String) :
    find_switch argv name = true ↔ name ∈ argv.tail := by
  simp [find_switch, find_argument, find_argument_from_eq_neg_one]

/-- No string equals both "XYZ" and "XYZRGB" up to letter case. -/
theorem iequals_XYZ_XYZRGB (a : String) (h : iequals a "XYZRGB" = true) :
    iequals a "XYZ" = false := by
  simp only [iequals, beq_iff_eq] at h
  simp only [iequals, h]
  decide

/-- C3: when neither -h nor --help is reported, `main` constructs the grabber and runs
exactly one viewer, the PointXYZ one, if the format equals "XYZ" up to letter case;
exactly one viewer, the PointXYZRGB one, if the format equals "XYZRGB" up to letter case;
and when no -format value is stored the format is the default "XYZ" and exactly the
PointXYZ viewer is run.  The format is the value stored by `parse_argument` for
-format, or "XYZ". -/
theorem main_format_selection (con : Console) (argv : List String)
    (hh : con.find_switch argv "-h" = false) (hhelp : con.find_switch argv "--help" = false) :
    (iequals ((con.parse_argument argv "-format").getD "XYZ") "XYZ" = true →
        (main con argv).viewers = [PointType.PointXYZ] ∧ (main con argv).grabber.isSome = true) ∧
    (iequals ((con.parse_argument argv "-format").getD "XYZ") "XYZRGB" = true →
        (main con argv).viewers = [PointType.PointXYZRGB] ∧ (main con argv).grabber.isSome = true) ∧
    (con.parse_argument argv "-format" = none →
        (con.parse_argument argv "-format").getD "XYZ" = "XYZ" ∧
        (main con argv).viewers = [PointType.PointXYZ] ∧ (main con argv).grabber.isSome = true) := by
  refine ⟨fun h => ?_, fun h => ?_, fun h => ?_⟩
  · simp [main, hh, hhelp, h]
  · have h2 := iequals_XYZ_XYZRGB _ h
    simp [main, hh, hhelp, h, h2]
  · have h3 : iequals "XYZ" "XYZ" = true := by decide
    simp [main, hh, hhelp, h, h3]

/-- Witness for C3: with the concrete command line helpers, "-format xyzrgb" runs exactly
the PointXYZRGB viewer. -/
theorem main_format_selection_witness :
    pclConsole.find_switch ["hdl_viewer_simple", "-format", "xyzrgb"] "-h" = false ∧
    iequals ((pclConsole.parse_argument ["hdl_viewer_simple", "-format", "xyzrgb"] "-format").getD
      "XYZ") "XYZRGB" = true ∧
    (main pclConsole ["hdl_viewer_simple", "-format", "xyzrgb"]).viewers
      = [PointType.PointXYZRGB] :=
  ⟨by decide, by decide,
    ((main_format_selection pclConsole ["hdl_viewer_simple", "-format", "xyzrgb"]
      (by decide) (by decide)).2.1 (by decide)).1⟩

/-- C4: whenever -h or --help is reported present, whatever else the argument vector
holds, `main` writes the usage text and returns 0; no grabber is constructed and no
viewer is created or run. -/
theorem main_help (con : Console) (argv : List String)
    (h : con.find_switch argv "-h" = true ∨ con.find_switch argv "--help" = true) :
    main con argv = ⟨usage argv, 0, none, []⟩ := by
  rcases h with h | h <;> simp [main, h]

/-- Witness for C4: --help after other options, with the concrete command line
helpers. -/
theorem main_help_witness :
    main pclConsole ["hdl_viewer_simple", "-format", "XYZRGB", "-pcapFile", "a.pcap", "--help"]
      = ⟨"usage: hdl_viewer_simple [-hdlCalibration <path-to-calibration-file>] [-pcapFile <path-to-pcap-file>] [-h | --help] [-format XYZ|XYZRGB]\nhdl_viewer_simple -h | --help : shows this help\n",
          0, none, []⟩ :=
  main_help pclConsole ["hdl_viewer_simple", "-format", "XYZRGB", "-pcapFile", "a.pcap", "--help"]
    (Or.inr (by decide))

/-- C5 (defect): the usage text advertises the option -hdlCalibration, but `main` reads
the calibration file from -calibrationFile.  Given "-hdlCalibration calib.xml" the
grabber is constructed with an empty calibration file name; the same path given as
"-calibrationFile calib.xml" reaches the grabber. -/
theorem main_hdlCalibration_not_read :
    usage ["hdl_viewer_simple"]
      = "usage: hdl_viewer_simple [-hdlCalibration <path-to-calibration-file>] [-pcapFile <path-to-pcap-file>] [-h | --help] [-format XYZ|XYZRGB]\nhdl_viewer_simple -h | --help : shows this help\n" ∧
    main pclConsole ["hdl_viewer_simple", "-hdlCalibration", "calib.xml"]
      = ⟨"", 0, some ("", ""), [PointType.PointXYZ]⟩ ∧
    main pclConsole ["hdl_viewer_simple", "-calibrationFile", "calib.xml"]
      = ⟨"", 0, some ("calib.xml", ""), [PointType.PointXYZ]⟩ ∧
    (∀ (con : Console) (argv : List String),
      (main con argv).grabber = none ∨
      (main con argv).grabber
        = some ((con.parse_argument argv "-calibrationFile").getD "",
                (con.parse_argument argv "-pcapFile").getD "")) := by
  refine ⟨rfl, by decide, by decide, fun con argv => ?_⟩
  unfold main
  split
  · exact Or.inl rfl
  · right
    dsimp only
    split
    · rfl
    · split <;> rfl

/-! ## Theorems: the sequential model -/

/-- After a non-empty sequence of callbacks the slot holds the last cloud delivered. -/
theorem foldl_cloud_callback (v : SimpleHDLViewer Cloud) (cs : List (Option Cloud))
    (hne : cs ≠ []) : (cs.foldl cloud_callback v).cloud_ = cs.getLast hne := by
  induction cs generalizing v with
  | nil => exact absurd rfl hne
  | cons c rest ih =>
    cases rest with
    | nil => rfl
    | cons d rest2 =>
      rw [List.foldl_cons, ih (cloud_callback v c) (List.cons_ne_nil d rest2)]
      rw [List.getLast_cons (List.cons_ne_nil d rest2)]

/-- Callbacks compose: delivering `as` and then `bs` is delivering `as ++ bs`. -/
theorem foldl_cloud_callback_append (v : SimpleHDLViewer Cloud) (as bs : List (Option Cloud)) :
    bs.foldl cloud_callback (as.foldl cloud_callback v) = (as ++ bs).foldl cloud_callback v := by
  rw [List.foldl_append]

/-- An iteration whose `try_lock` fails hands nothing to the viewer and leaves the state
as the callbacks made it. -/
theorem body_of_lock_failed (v : SimpleHDLViewer Cloud) (t : Tick Cloud)
    (h : t.lockFree = false) :
    (body v t).1 = t.arrivals.foldl cloud_callback v ∧ passedClouds (body v t).2 = [] := by
  constructor
  · simp [body, take, h]
  · cases hr : t.running <;> simp [body, take, h, draw, passedClouds, Call.passed, hr]

/-- Iterations whose `try_lock` fails hand nothing to the viewer; the state after them
is the one made by all their callbacks in order. -/
theorem iterations_of_lock_failed (v : SimpleHDLViewer Cloud) (pre : List (Tick Cloud))
    (h : ∀ t ∈ pre, t.lockFree = false) :
    (iterations v pre).1 = (pre.map Tick.arrivals).flatten.foldl cloud_callback v ∧
      passedClouds (iterations v pre).2 = [] := by
  induction pre generalizing v with
  | nil => exact ⟨rfl, rfl⟩
  | cons t ts ih =>
    have ht := body_of_lock_failed v t (h t (List.mem_cons_self t ts))
    have hts := ih (body v t).1 (fun u hu => h u (List.mem_cons_of_mem t hu))
    constructor
    · simp only [iterations, List.map_cons, List.flatten_cons, List.foldl_append]
      rw [hts.1, ht.1]
    · simp only [iterations]
      have e : passedClouds (Call.wasStopped false :: ((body v t).2 ++ (iterations (body v t).1 ts).2))
          = passedClouds (body v t).2 ++ passedClouds (iterations (body v t).1 ts).2 := by
        simp [passedClouds, Call.passed, List.filterMap_append]
      rw [e, ht.2, hts.2]
      rfl

/-- The clouds handed to the viewer by the drawing step are the local cloud, if any. -/
theorem passedClouds_body (v : SimpleHDLViewer Cloud) (t : Tick Cloud) :
    ∀ c ∈ passedClouds (body v t).2, taken v t = some c := by
  intro c hc
  unfold taken
  cases ht : (take (t.arrivals.foldl cloud_callback v) t.lockFree).2 with
  | none =>
    cases hr : t.running <;> simp [body, ht, draw, passedClouds, Call.passed, hr] at hc
  | some d =>
    cases hr : t.running <;> cases hu : t.updateOk <;>
      simp [body, ht, draw, passedClouds, Call.passed, hr, hu] at hc <;> simp [hc]

/-- C1: from any state, let clouds be delivered through `cloud_callback` while the run
loop makes iterations whose `try_lock` fails (no take in between), and let `cs`, not
empty, be all the clouds delivered up to the `try_lock` of the next iteration that
succeeds.  That iteration obtains exactly the last element of `cs` as its local cloud;
the iterations before it hand no cloud to the viewer; every cloud it hands to the viewer
is that last element; and it leaves the slot null, so no earlier cloud remains. -/
theorem newest_frame_handoff (v : SimpleHDLViewer Cloud) (pre : List (Tick Cloud))
    (last : Tick Cloud) (hpre : ∀ t ∈ pre, t.lockFree = false) (hlast : last.lockFree = true)
    (hne : (pre.map Tick.arrivals).flatten ++ last.arrivals ≠ []) :
    taken (iterations v pre).1 last
        = ((pre.map Tick.arrivals).flatten ++ last.arrivals).getLast hne ∧
      passedClouds (iterations v pre).2 = [] ∧
      (∀ c ∈ passedClouds (body (iterations v pre).1 last).2,
        some c = ((pre.map Tick.arrivals).flatten ++ last.arrivals).getLast hne) ∧
      (body (iterations v pre).1 last).1 = ⟨none⟩ := by
  have hp := iterations_of_lock_failed v pre hpre
  have ht : taken (iterations v pre).1 last
      = ((pre.map Tick.arrivals).flatten ++ last.arrivals).getLast hne := by
    unfold taken
    rw [hp.1, foldl_cloud_callback_append]
    simp only [take, hlast, if_true]
    exact foldl_cloud_callback v _ hne
  refine ⟨ht, hp.2, fun c hc => ?_, ?_⟩
  · rw [← ht]
    exact (passedClouds_body _ last c hc).symm
  · simp [body, take, hlast]

/-- Witness for C1: clouds 1 and 2 arrive during an iteration whose `try_lock` fails,
cloud 3 arrives next, and the iteration whose `try_lock` succeeds obtains cloud 3. -/
theorem newest_frame_handoff_witness :
    taken (iterations (⟨some 0⟩ : SimpleHDLViewer Nat)
        [⟨false, [some 1, some 2], false, true, true⟩]).1
      ⟨false, [some 3], true, true, true⟩ = some 3 :=
  (newest_frame_handoff (⟨some 0⟩ : SimpleHDLViewer Nat)
    [⟨false, [some 1, some 2], false, true, true⟩] ⟨false, [some 3], true, true, true⟩
    (by decide) rfl (by decide)).1

/-- C7: in a loop iteration, when `try_lock` succeeds the local cloud receives the content
the slot had at that moment and the slot becomes null; when it fails the slot is
unchanged and the local cloud is null.  Two iterations whose `try_lock` succeeds, with no
callback before the second, give a null local cloud in the second, which hands nothing to
the viewer. -/
theorem take_empties_slot (v : SimpleHDLViewer Cloud) (t : Tick Cloud) :
    take v true = (⟨none⟩, v.cloud_) ∧
    take v false = (v, none) ∧
    (t.lockFree = true →
      taken v t = (t.arrivals.foldl cloud_callback v).cloud_ ∧ (body v t).1.cloud_ = none) ∧
    (t.lockFree = false →
      taken v t = none ∧ (body v t).1 = t.arrivals.foldl cloud_callback v) ∧
    (∀ t2 : Tick Cloud, t.lockFree = true → t2.lockFree = true → t2.arrivals = [] →
      taken (body v t).1 t2 = none ∧ passedClouds (body (body v t).1 t2).2 = []) := by
  refine ⟨rfl, rfl, fun h => ?_, fun h => ?_, fun t2 h h2 ha => ?_⟩
  · simp [taken, body, take, h]
  · simp [taken, body, take, h]
  · have e : taken (body v t).1 t2 = none := by simp [taken, body, take, h, h2, ha]
    refine ⟨e, ?_⟩
    cases hp : passedClouds (body (body v t).1 t2).2 with
    | nil => rfl
    | cons c rest =>
      have hc := passedClouds_body (body v t).1 t2 c (by rw [hp]; exact List.mem_cons_self c rest)
      rw [e] at hc
      exact absurd hc (by simp)

/-- Witness for C7: cloud 7 is taken by the first iteration and the second one, with no
callback in between, takes null. -/
theorem take_empties_slot_witness :
    taken (⟨none⟩ : SimpleHDLViewer Nat) ⟨false, [some 7], true, false, true⟩ = some 7 ∧
    taken (body (⟨none⟩ : SimpleHDLViewer Nat) ⟨false, [some 7], true, false, true⟩).1
      ⟨false, [], true, true, true⟩ = none :=
  ⟨by decide,
    ((take_empties_slot (⟨none⟩ : SimpleHDLViewer Nat)
      ⟨false, [some 7], true, false, true⟩).2.2.2.2 ⟨false, [], true, true, true⟩
      rfl rfl rfl).1⟩

/-- The drawing calls of one loop body, in order, in terms of the local cloud. -/
theorem body_filter_isDraw (v : SimpleHDLViewer Cloud) (t : Tick Cloud) :
    (body v t).2.filter Call.isDraw = draw (taken v t) t.updateOk := by
  unfold taken
  cases ht : (take (t.arrivals.foldl cloud_callback v) t.lockFree).2 with
  | none => cases hr : t.running <;> simp [body, ht, draw, Call.isDraw, hr]
  | some d =>
    cases hr : t.running <;> cases hu : t.updateOk <;>
      simp [body, ht, draw, Call.isDraw, hr, hu]

/-- Every cloud id named by the drawing step is "HDL". -/
theorem draw_cloudId (cloud : Option Cloud) (updateOk : Bool) :
    ∀ call ∈ draw cloud updateOk, ∀ id, call.cloudId = some id → id = "HDL" := by
  intro call hc id hid
  cases cloud with
  | none => simp [draw] at hc
  | some c =>
    cases updateOk
    · simp only [draw, Bool.not_false, if_true, List.cons_append, List.nil_append,
        List.mem_cons, List.mem_singleton, List.not_mem_nil, or_false] at hc
      rcases hc with rfl | rfl | rfl
      · simp only [Call.cloudId, Option.some.injEq] at hid; exact hid.symm
      · simp only [Call.cloudId, Option.some.injEq] at hid; exact hid.symm
      · simp [Call.cloudId] at hid
    · simp only [draw, Bool.not_true, Bool.false_eq_true, if_false, List.cons_append,
        List.nil_append, List.mem_cons, List.mem_singleton, List.not_mem_nil, or_false,
        List.append_nil] at hc
      rcases hc with rfl | rfl
      · simp only [Call.cloudId, Option.some.injEq] at hid; exact hid.symm
      · simp [Call.cloudId] at hid

/-- Every cloud id named in a loop body is "HDL". -/
theorem body_cloudId (v : SimpleHDLViewer Cloud) (t : Tick Cloud) :
    ∀ call ∈ (body v t).2, ∀ id, call.cloudId = some id → id = "HDL" := by
  intro call hc id hid
  simp only [body, List.mem_append, List.mem_singleton] at hc
  rcases hc with ((hc | rfl) | hc) | rfl
  · exact draw_cloudId _ _ call hc id hid
  · simp [Call.cloudId] at hid
  · cases hr : t.running
    · simp only [hr, Bool.not_false, if_true, List.mem_singleton] at hc
      subst hc
      simp [Call.cloudId] at hid
    · simp [hr] at hc
  · simp [Call.cloudId] at hid

/-- Every cloud id named in a sequence of iterations is "HDL". -/
theorem iterations_cloudId (v : SimpleHDLViewer Cloud) (ticks : List (Tick Cloud)) :
    ∀ call ∈ (iterations v ticks).2, ∀ id, call.cloudId = some id → id = "HDL" := by
  induction ticks generalizing v with
  | nil => intro call hc; simp [iterations] at hc
  | cons t ts ih =>
    intro call hc id hid
    simp only [iterations, List.mem_cons, List.mem_append] at hc
    rcases hc with rfl | hc | hc
    · simp [Call.cloudId] at hid
    · exact body_cloudId v t call hc id hid
    · exact ih (body v t).1 call hc id hid

/-- The loop ends within a schedule exactly when some tick reports the viewer stopped. -/
theorem loop_isSome (v : SimpleHDLViewer Cloud) (ticks : List (Tick Cloud)) :
    (loop v ticks).isSome = true ↔ ∃ t ∈ ticks, t.stopped = true := by
  induction ticks generalizing v with
  | nil => simp [loop]
  | cons t ts ih =>
    cases hs : t.stopped
    · simp [loop, hs, ih]
    · simp [loop, hs]

/-- When the loop ends, it has run the iterations of the ticks before the first stopped
one, then evaluated the loop condition once more with `wasStopped ()` answering true. -/
theorem loop_eq_iterations (v : SimpleHDLViewer Cloud) (ticks : List (Tick Cloud))
    (out : SimpleHDLViewer Cloud × List (Call Cloud)) (h : loop v ticks = some out) :
    out = ((iterations v (iterated ticks)).1,
      (iterations v (iterated ticks)).2 ++ [Call.wasStopped true]) := by
  induction ticks generalizing v out with
  | nil => simp [loop] at h
  | cons t ts ih =>
    cases hs : t.stopped
    · simp only [loop, hs, Bool.false_eq_true, if_false, Option.map_eq_some'] at h
      obtain ⟨o, ho, rfl⟩ := h
      have := ih (body v t).1 o ho
      rw [this]
      simp [iterated, List.takeWhile, hs, iterations]
    · simp only [loop, hs, if_true, Option.some.injEq] at h
      subst h
      simp [iterated, List.takeWhile, hs, iterations]

/-- When `run` returns, its trace is the set-up, the registration and start of the
grabber, the loop, then stop and disconnect. -/
theorem run_eq (v : SimpleHDLViewer Cloud) (ticks : List (Tick Cloud))
    (out : SimpleHDLViewer Cloud × List (Call Cloud)) (h : run v ticks = some out) :
    out.2 = setup ++ [Call.registerCallback, Call.start]
      ++ ((iterations v (iterated ticks)).2 ++ [Call.wasStopped true])
      ++ [Call.stop, Call.disconnect] := by
  simp only [run, Option.map_eq_some'] at h
  obtain ⟨o, ho, rfl⟩ := h
  rw [loop_eq_iterations v ticks o ho]

/-- C8: in every loop iteration, if the taken cloud is null none of updatePointCloud,
addPointCloud and spinOnce is called; if it is a cloud c, the calls of the drawing step
are updatePointCloud (c, "HDL") once, then addPointCloud (c, "HDL") if and only if the
update returned false, then spinOnce once.  In a whole execution of `run` the only cloud
id named is "HDL". -/
theorem draw_step (v : SimpleHDLViewer Cloud) (t : Tick Cloud) :
    (taken v t = none → (body v t).2.filter Call.isDraw = []) ∧
    (∀ c, taken v t = some c → t.updateOk = true →
      (body v t).2.filter Call.isDraw = [Call.updatePointCloud c "HDL" true, Call.spinOnce]) ∧
    (∀ c, taken v t = some c → t.updateOk = false →
      (body v t).2.filter Call.isDraw
        = [Call.updatePointCloud c "HDL" false, Call.addPointCloud c "HDL", Call.spinOnce]) ∧
    (∀ ticks out, run v ticks = some out →
      ∀ call ∈ out.2, ∀ id, call.cloudId = some id → id = "HDL") := by
  refine ⟨fun h => ?_, fun c h hu => ?_, fun c h hu => ?_, fun ticks out h call hc id hid => ?_⟩
  · rw [body_filter_isDraw, h]; rfl
  · rw [body_filter_isDraw, h, hu]; rfl
  · rw [body_filter_isDraw, h, hu]; rfl
  · rw [run_eq v ticks out h] at hc
    simp only [List.mem_append, List.mem_cons, List.mem_singleton, setup, List.not_mem_nil,
      or_false] at hc
    rcases hc with ((hc | hc) | hc) | hc
    · rcases hc with rfl | rfl | rfl | rfl | rfl <;> simp [Call.cloudId] at hid
    · rcases hc with rfl | rfl <;> simp [Call.cloudId] at hid
    · rcases hc with hc | rfl
      · exact iterations_cloudId v _ call hc id hid
      · simp [Call.cloudId] at hid
    · rcases hc with rfl | rfl <;> simp [Call.cloudId] at hid

/-- Witness for C8: cloud 5 is taken and the update returns false, so the drawing step
is update, add, spinOnce. -/
theorem draw_step_witness :
    (body (⟨none⟩ : SimpleHDLViewer Nat) ⟨false, [some 5], true, false, true⟩).2.filter
        Call.isDraw
      = [Call.updatePointCloud 5 "HDL" false, Call.addPointCloud 5 "HDL", Call.spinOnce] :=
  (draw_step (⟨none⟩ : SimpleHDLViewer Nat) ⟨false, [some 5], true, false, true⟩).2.2.1 5
    (by decide) rfl

/-- The only call a loop body makes on the grabber is one `isRunning ()` query. -/
theorem body_filter_onGrabber (v : SimpleHDLViewer Cloud) (t : Tick Cloud) :
    (body v t).2.filter Call.onGrabber = [Call.isRunning t.running] := by
  cases ht : (take (t.arrivals.foldl cloud_callback v) t.lockFree).2 with
  | none => cases hr : t.running <;> simp [body, ht, draw, Call.onGrabber, hr]
  | some d =>
    cases hr : t.running <;> cases hu : t.updateOk <;>
      simp [body, ht, draw, Call.onGrabber, hr, hu]

/-- A loop body makes no `wasStopped ()` query and no registration call. -/
theorem body_filter_isWasStopped (v : SimpleHDLViewer Cloud) (t : Tick Cloud) :
    (body v t).2.filter Call.isWasStopped = [] ∧ (body v t).2.filter Call.isRegistration = [] := by
  cases ht : (take (t.arrivals.foldl cloud_callback v) t.lockFree).2 with
  | none =>
    cases hr : t.running <;> simp [body, ht, draw, Call.isWasStopped, Call.isRegistration, hr]
  | some d =>
    cases hr : t.running <;> cases hu : t.updateOk <;>
      simp [body, ht, draw, Call.isWasStopped, Call.isRegistration, hr, hu]

/-- The calls a sequence of iterations makes on the grabber: one `isRunning ()` query per
iteration. -/
theorem iterations_filter_onGrabber (v : SimpleHDLViewer Cloud) (ticks : List (Tick Cloud)) :
    (iterations v ticks).2.filter Call.onGrabber
      = ticks.map fun t => Call.isRunning t.running := by
  induction ticks generalizing v with
  | nil => rfl
  | cons t ts ih =>
    simp only [iterations, List.map_cons]
    rw [List.filter_cons_of_neg (by simp [Call.onGrabber]), List.filter_append,
      body_filter_onGrabber, ih]
    rfl

/-- The `wasStopped ()` queries of a sequence of iterations: one per iteration, each
answering false. -/
theorem iterations_filter_isWasStopped (v : SimpleHDLViewer Cloud)
    (ticks : List (Tick Cloud)) :
    (iterations v ticks).2.filter Call.isWasStopped
      = ticks.map fun _ => Call.wasStopped false := by
  induction ticks generalizing v with
  | nil => rfl
  | cons t ts ih =>
    simp only [iterations, List.map_cons]
    rw [List.filter_cons_of_pos (by simp [Call.isWasStopped]), List.filter_append,
      (body_filter_isWasStopped v t).1, ih]
    rfl

/-- A sequence of iterations makes no registration call. -/
theorem iterations_filter_isRegistration (v : SimpleHDLViewer Cloud)
    (ticks : List (Tick Cloud)) :
    (iterations v ticks).2.filter Call.isRegistration = [] := by
  induction ticks generalizing v with
  | nil => rfl
  | cons t ts ih =>
    simp only [iterations]
    rw [List.filter_cons_of_neg (by simp [Call.isRegistration]), List.filter_append,
      (body_filter_isWasStopped v t).2, ih]
    rfl

/-- C9: `run` returns within a schedule exactly when the viewer reports wasStopped in it.
When it returns, its trace is the set-up, registerCallback, start, a middle part, stop,
disconnect; the calls on the grabber in the middle part are isRunning queries only, one
per loop iteration, so the calls on the grabber and the connection are registerCallback,
start, the isRunning queries, stop, disconnect, each of the four once and in this order;
no cloud is handed to the viewer up to start or from stop on; and every wasStopped query
answers false except the last one, which answers true and ends the loop. -/
theorem run_grabber_lifecycle (v : SimpleHDLViewer Cloud) (ticks : List (Tick Cloud)) :
    ((run v ticks).isSome = true ↔ ∃ t ∈ ticks, t.stopped = true) ∧
    (∀ out, run v ticks = some out →
      ∃ mid, out.2 = setup ++ [Call.registerCallback, Call.start] ++ mid
            ++ [Call.stop, Call.disconnect] ∧
        mid.filter Call.onGrabber = (iterated ticks).map (fun t => Call.isRunning t.running) ∧
        out.2.filter Call.onGrabber
          = [Call.registerCallback, Call.start]
            ++ (iterated ticks).map (fun t => Call.isRunning t.running)
            ++ [Call.stop, Call.disconnect] ∧
        passedClouds (setup ++ [Call.registerCallback, Call.start] : List (Call Cloud)) = [] ∧
        passedClouds ([Call.stop, Call.disconnect] : List (Call Cloud)) = [] ∧
        out.2.filter Call.isWasStopped
          = (iterated ticks).map (fun _ => Call.wasStopped false) ++ [Call.wasStopped true]) := by
  constructor
  · rw [← loop_isSome v ticks]
    simp [run]
  · intro out h
    have e := run_eq v ticks out h
    refine ⟨(iterations v (iterated ticks)).2 ++ [Call.wasStopped true], e, ?_, ?_, rfl, rfl, ?_⟩
    · rw [List.filter_append, iterations_filter_onGrabber]
      simp [Call.onGrabber]
    · rw [e]
      simp only [List.filter_append, iterations_filter_onGrabber]
      simp [setup, Call.onGrabber]
    · rw [e]
      simp only [List.filter_append, iterations_filter_isWasStopped]
      simp [setup, Call.isWasStopped]

/-- Witness for C9: a schedule of two iterations and then a closed window. -/
theorem run_grabber_lifecycle_witness :
    (run (⟨none⟩ : SimpleHDLViewer Nat)
        [⟨false, [some 1], true, false, true⟩, ⟨false, [], true, true, false⟩,
          ⟨true, [], true, true, true⟩]).isSome = true ∧
    (((run (⟨none⟩ : SimpleHDLViewer Nat)
        [⟨false, [some 1], true, false, true⟩, ⟨false, [], true, true, false⟩,
          ⟨true, [], true, true, true⟩]).getD (⟨none⟩, [])).2.filter Call.onGrabber
      = [Call.registerCallback, Call.start, Call.isRunning true, Call.isRunning false,
          Call.stop, Call.disconnect]) :=
  ⟨by decide,
    match (run_grabber_lifecycle (⟨none⟩ : SimpleHDLViewer Nat)
      [⟨false, [some 1], true, false, true⟩, ⟨false, [], true, true, false⟩,
        ⟨true, [], true, true, true⟩]).2 _ (by decide) with
    | ⟨_, _, _, h, _⟩ => h⟩

/-- A call that registers an input callback is a registration call. -/
theorem isRegistration_of_input (c : Call Cloud)
    (h : c.isKeyboardRegistration = true ∨ c.isMouseRegistration = true) :
    c.isRegistration = true := by
  cases c <;> simp [Call.isKeyboardRegistration, Call.isMouseRegistration,
    Call.isRegistration] at h ⊢

/-- When `run` returns, its trace has no call that registers an input callback. -/
theorem run_no_input_registration (v : SimpleHDLViewer Cloud) (ticks : List (Tick Cloud))
    (out : SimpleHDLViewer Cloud × List (Call Cloud)) (h : run v ticks = some out) :
    out.2.any Call.isKeyboardRegistration = false ∧
      out.2.any Call.isMouseRegistration = false := by
  have hit : ∀ c ∈ (iterations v (iterated ticks)).2,
      c.isKeyboardRegistration = false ∧ c.isMouseRegistration = false := by
    intro c hc
    have hn := (List.filter_eq_nil_iff.mp (iterations_filter_isRegistration v (iterated ticks))) c hc
    constructor
    · cases hk : c.isKeyboardRegistration
      · rfl
      · exact absurd (isRegistration_of_input c (Or.inl hk)) hn
    · cases hk : c.isMouseRegistration
      · rfl
      · exact absurd (isRegistration_of_input c (Or.inr hk)) hn
  have hall : ∀ c ∈ out.2, c.isKeyboardRegistration = false ∧ c.isMouseRegistration = false := by
    intro c hc
    rw [run_eq v ticks out h] at hc
    simp only [List.mem_append, List.mem_cons, List.mem_singleton, setup, List.not_mem_nil,
      or_false] at hc
    rcases hc with ((hc | hc) | hc) | hc
    · rcases hc with rfl | rfl | rfl | rfl | rfl <;> exact ⟨rfl, rfl⟩
    · rcases hc with rfl | rfl <;> exact ⟨rfl, rfl⟩
    · rcases hc with hc | rfl
      · exact hit c hc
      · exact ⟨rfl, rfl⟩
    · rcases hc with rfl | rfl <;> exact ⟨rfl, rfl⟩
  constructor
  · rw [List.any_eq_false]
    intro c hc
    simp [(hall c hc).1]
  · rw [List.any_eq_false]
    intro c hc
    simp [(hall c hc).2]

/-- C6, as stated, fails: in the execution of `run` in which the window is closed at
once, the trace holds no registration of a keyboard or mouse callback with the viewer,
so a key press and a left-button press delivered to the window produce no line, although
the callbacks themselves would write one. -/
theorem run_registers_input_callbacks_counterexample :
    run (⟨none⟩ : SimpleHDLViewer Nat) [⟨true, [], true, true, true⟩]
      = some (⟨none⟩,
          [Call.addCoordinateSystem 300, Call.setBackgroundColor 0 0 0,
            Call.initCameraParameters, Call.setCameraPosition 0 0 3000 0 1 0 0,
            Call.setCameraClipDistances 0 5000, Call.registerCallback, Call.start,
            Call.wasStopped true, Call.stop, Call.disconnect]) ∧
    Call.registerKeyboardCallback ∉
      ((run (⟨none⟩ : SimpleHDLViewer Nat) [⟨true, [], true, true, true⟩]).getD (⟨none⟩, [])).2 ∧
    Call.registerMouseCallback ∉
      ((run (⟨none⟩ : SimpleHDLViewer Nat) [⟨true, [], true, true, true⟩]).getD (⟨none⟩, [])).2 ∧
    keyboard_callback ⟨113, "q", true⟩ = "the key \x27q\x27 (113) was pressed\n" ∧
    onKeyEvent
      ((run (⟨none⟩ : SimpleHDLViewer Nat) [⟨true, [], true, true, true⟩]).getD (⟨none⟩, [])).2
      ⟨113, "q", true⟩ = "" ∧
    mouse_callback ⟨MouseType.MouseButtonPress, MouseButton.LeftButton, 10, 20⟩
      = "10 , 20\n" ∧
    onMouseEvent
      ((run (⟨none⟩ : SimpleHDLViewer Nat) [⟨true, [], true, true, true⟩]).getD (⟨none⟩, [])).2
      ⟨MouseType.MouseButtonPress, MouseButton.LeftButton, 10, 20⟩ = "" := by
  refine ⟨by decide, by decide, by decide, by decide, by decide, by decide, by decide⟩

/-- C6, amended: the only registration `run` makes is that of the cloud callback with the
grabber; it registers neither `keyboard_callback` nor `mouse_callback` with the viewer,
so no key or mouse event delivered to the window makes this program write a line.  The
callbacks, when invoked, write: for a key with a non-zero code "the key 'c' (n) was"
followed by " pressed" or " released"; for a key with code zero "the special key 'sym'
was" followed by the same; for a left-button press "x , y"; for any other mouse event
nothing. -/
theorem run_registers_cloud_callback_only (v : SimpleHDLViewer Cloud)
    (ticks : List (Tick Cloud)) :
    (∀ out, run v ticks = some out →
      out.2.filter Call.isRegistration = [Call.registerCallback] ∧
      (∀ event, onKeyEvent out.2 event = "") ∧
      (∀ mouse_event, onMouseEvent out.2 mouse_event = "")) ∧
    (∀ event : KeyboardEvent, event.keyCode ≠ 0 →
      keyboard_callback event
        = "the key \x27" ++ String.singleton (Char.ofNat event.keyCode.val) ++ "\x27 ("
          ++ toString event.keyCode.val ++ ") was"
          ++ (if event.keyDown then " pressed\n" else " released\n")) ∧
    (∀ event : KeyboardEvent, event.keyCode = 0 →
      keyboard_callback event
        = "the special key \x27" ++ event.keySym ++ "\x27 was"
          ++ (if event.keyDown then " pressed\n" else " released\n")) ∧
    (∀ x y : Nat,
      mouse_callback ⟨MouseType.MouseButtonPress, MouseButton.LeftButton, x, y⟩
        = toString x ++ " , " ++ toString y ++ "\n") ∧
    (∀ mouse_event : MouseEvent,
      ¬ (mouse_event.type = MouseType.MouseButtonPress ∧
          mouse_event.button = MouseButton.LeftButton) →
      mouse_callback mouse_event = "") := by
  refine ⟨fun out h => ⟨?_, fun event => ?_, fun mouse_event => ?_⟩, fun event h => ?_,
    fun event h => ?_, fun x y => ?_, fun mouse_event h => ?_⟩
  · rw [run_eq v ticks out h]
    simp only [List.filter_append, iterations_filter_isRegistration]
    simp [setup, Call.isRegistration]
  · simp [onKeyEvent, (run_no_input_registration v ticks out h).1]
  · simp [onMouseEvent, (run_no_input_registration v ticks out h).2]
  · simp only [keyboard_callback, h, ne_eq, not_false_eq_true, if_true]
    cases event.keyDown <;> rfl
  · simp only [keyboard_callback, h, ne_eq, not_true_eq_false, if_false]
    cases event.keyDown <;> rfl
  · simp [mouse_callback]
  · simp [mouse_callback, h]

/-- Witness for C6, amended: in an execution of `run` with one drawn cloud, the single
registration is that of the cloud callback, and a key press produces no line. -/
theorem run_registers_cloud_callback_only_witness :
    ((run (⟨none⟩ : SimpleHDLViewer Nat)
        [⟨false, [some 1], true, false, true⟩, ⟨true, [], true, true, true⟩]).getD
          (⟨none⟩, [])).2.filter Call.isRegistration = [Call.registerCallback] ∧
    keyboard_callback ⟨0, "F1", false⟩ = "the special key \x27F1\x27 was released\n" :=
  ⟨((run_registers_cloud_callback_only (⟨none⟩ : SimpleHDLViewer Nat)
      [⟨false, [some 1], true, false, true⟩, ⟨true, [], true, true, true⟩]).1 _
      (by decide)).1,
    (run_registers_cloud_callback_only (⟨none⟩ : SimpleHDLViewer Nat) []).2.2.1
      ⟨0, "F1", false⟩ rfl⟩

/-! ## Theorems: the interleaving model -/

/-- The invariant holds when `run` reaches its loop. -/
theorem inv_init : Inv (System.init : System Cloud) := by
  constructor
  · intro i; simp [System.init, ProducerPc.inCritical]
  · simp [System.init, ConsumerPc.inCritical]

/-- Every statement of every thread preserves the invariant. -/
theorem inv_step (s : System Cloud) (a : Sched Cloud) (h : Inv s) : Inv (step s a) := by
  obtain ⟨hp, hc⟩ := h
  cases a with
  | producer i c =>
    have hi := hp i
    cases hpi : s.producer i with
    | idle =>
      simp only [hpi, ProducerPc.inCritical, Bool.false_eq_true, false_iff] at hi
      simp only [step, hpi]
      refine ⟨fun j => ?_, hc⟩
      by_cases hj : j = i
      · subst hj; simp [System.setProducer, ProducerPc.inCritical, hi]
      · simp only [System.setProducer, hj, if_false]; exact hp j
    | lock c0 =>
      simp only [hpi, ProducerPc.inCritical, Bool.false_eq_true, false_iff] at hi
      simp only [step, hpi]
      by_cases hm : s.cloud_mutex_ = none
      · simp only [hm, if_true]
        refine ⟨fun j => ?_, ?_⟩
        · by_cases hj : j = i
          · subst hj; simp [System.setProducer, ProducerPc.inCritical]
          · have := hp j
            rw [hm] at this
            simp only [System.setProducer, hj, if_false, Option.some.injEq, Thread.producer.injEq]
            simp only [reduceCtorEq, iff_false] at this
            constructor
            · intro h1; exact absurd h1 this
            · intro h1; exact absurd h1.symm hj
        · rw [hm] at hc
          simp only [reduceCtorEq, iff_false] at hc
          simp [hc]
      · simp only [hm, if_false]
        exact ⟨hp, hc⟩
    | assign c0 =>
      simp only [hpi, ProducerPc.inCritical, true_iff] at hi
      simp only [step, hpi]
      refine ⟨fun j => ?_, hc⟩
      by_cases hj : j = i
      · subst hj; simp [System.setProducer, ProducerPc.inCritical, hi]
      · simp only [System.setProducer, hj, if_false]; exact hp j
    | unlock =>
      simp only [hpi, ProducerPc.inCritical, true_iff] at hi
      simp only [step, hpi]
      refine ⟨fun j => ?_, ?_⟩
      · by_cases hj : j = i
        · subst hj; simp [System.setProducer, ProducerPc.inCritical]
        · have := hp j
          rw [hi] at this
          simp only [Option.some.injEq, Thread.producer.injEq] at this
          simp only [System.setProducer, hj, if_false, reduceCtorEq, iff_false]
          intro h1
          exact hj (this.mp h1).symm
      · rw [hi] at hc
        simp only [Option.some.injEq, reduceCtorEq, iff_false] at hc
        simp [hc]
  | consumer stopped =>
    cases hcs : s.consumer with
    | loopTest =>
      simp only [hcs, ConsumerPc.inCritical, Bool.false_eq_true, false_iff] at hc
      simp only [step, hcs]
      cases stopped
      · exact ⟨hp, by simp [ConsumerPc.inCritical, hc]⟩
      · exact ⟨hp, by simp [ConsumerPc.inCritical, hc]⟩
    | tryLock =>
      simp only [hcs, ConsumerPc.inCritical, Bool.false_eq_true, false_iff] at hc
      simp only [step, hcs]
      by_cases hm : s.cloud_mutex_ = none
      · simp only [hm, if_true]
        refine ⟨fun j => ?_, by simp [ConsumerPc.inCritical]⟩
        have := hp j
        rw [hm] at this
        simp only [reduceCtorEq, iff_false] at this
        simp [this]
      · simp only [hm, if_false]
        exact ⟨hp, by simp [ConsumerPc.inCritical, hc]⟩
    | swap =>
      simp only [hcs, ConsumerPc.inCritical, true_iff] at hc
      simp only [step, hcs]
      exact ⟨hp, by simp [ConsumerPc.inCritical, hc]⟩
    | unlock =>
      simp only [hcs, ConsumerPc.inCritical, true_iff] at hc
      simp only [step, hcs]
      refine ⟨fun j => ?_, by simp [ConsumerPc.inCritical]⟩
      have := hp j
      rw [hc] at this
      simp only [Option.some.injEq, reduceCtorEq, iff_false] at this
      simp [this]
    | draw =>
      simp only [hcs, ConsumerPc.inCritical, Bool.false_eq_true, false_iff] at hc
      simp only [step, hcs]
      exact ⟨hp, by simp [ConsumerPc.inCritical, hc]⟩
    | isRunning =>
      simp only [hcs, ConsumerPc.inCritical, Bool.false_eq_true, false_iff] at hc
      simp only [step, hcs]
      exact ⟨hp, by simp [ConsumerPc.inCritical, hc]⟩
    | sleep =>
      simp only [hcs, ConsumerPc.inCritical, Bool.false_eq_true, false_iff] at hc
      simp only [step, hcs]
      exact ⟨hp, by simp [ConsumerPc.inCritical, hc]⟩
    | stop =>
      simp only [hcs, ConsumerPc.inCritical, Bool.false_eq_true, false_iff] at hc
      simp only [step, hcs]
      exact ⟨hp, by simp [ConsumerPc.inCritical, hc]⟩
    | done =>
      simp only [step, hcs]
      exact ⟨hp, hc⟩

/-- The invariant holds after every schedule. -/
theorem inv_exec (acts : List (Sched Cloud)) : Inv (exec acts) := by
  induction acts using List.reverseRecOn with
  | nil => exact inv_init
  | append_singleton l a ih =>
    have e : exec (l ++ [a]) = step (exec l) a := by simp [exec, List.foldl_append]
    rw [e]
    exact inv_step _ a ih

/-- A step changes the slot `cloud_` only if it is the assignment of line 90 or the swap
of line 131. -/
theorem cloud_changes_only_by_access (s : System Cloud) (a : Sched Cloud)
    (h : (step s a).cloud_ ≠ s.cloud_) : accessesSlot s a = true := by
  cases a with
  | producer i c =>
    cases hpi : s.producer i with
    | idle => simp [step, hpi] at h
    | lock c0 =>
      by_cases hm : s.cloud_mutex_ = none <;> simp [step, hpi, hm] at h
    | assign c0 => simp [accessesSlot, hpi]
    | unlock => simp [step, hpi] at h
  | consumer stopped =>
    cases hcs : s.consumer with
    | loopTest => cases stopped <;> simp [step, hcs] at h
    | tryLock => by_cases hm : s.cloud_mutex_ = none <;> simp [step, hcs, hm] at h
    | swap => simp [accessesSlot, hcs]
    | unlock => simp [step, hcs] at h
    | draw => simp [step, hcs] at h
    | isRunning => simp [step, hcs] at h
    | sleep => simp [step, hcs] at h
    | stop => simp [step, hcs] at h
    | done => simp [step, hcs] at h

/-- A step makes the thread of `run` the holder of the mutex only if it is that thread's
`try_lock ()`. -/
theorem consumer_acquires_by_tryLock (s : System Cloud) (a : Sched Cloud)
    (h : (step s a).cloud_mutex_ = some Thread.consumer)
    (h0 : s.cloud_mutex_ ≠ some Thread.consumer) :
    a.thread = Thread.consumer ∧ s.consumer = ConsumerPc.tryLock := by
  cases a with
  | producer i c =>
    cases hpi : s.producer i with
    | idle => simp [step, hpi] at h; exact absurd h h0
    | lock c0 =>
      by_cases hm : s.cloud_mutex_ = none
      · simp [step, hpi, hm] at h
      · simp [step, hpi, hm] at h; exact absurd h h0
    | assign c0 => simp [step, hpi] at h; exact absurd h h0
    | unlock => simp [step, hpi] at h
  | consumer stopped =>
    cases hcs : s.consumer with
    | loopTest => cases stopped <;> simp [step, hcs] at h <;> exact absurd h h0
    | tryLock => exact ⟨rfl, rfl⟩
    | swap => simp [step, hcs] at h; exact absurd h h0
    | unlock => simp [step, hcs] at h
    | draw => simp [step, hcs] at h; exact absurd h h0
    | isRunning => simp [step, hcs] at h; exact absurd h h0
    | sleep => simp [step, hcs] at h; exact absurd h h0
    | stop => simp [step, hcs] at h; exact absurd h h0
    | done => simp [step, hcs] at h; exact absurd h h0

/-- Until it has returned, every step of the thread of `run` moves it to another
statement, whatever the state of the mutex. -/
theorem consumer_never_waits (s : System Cloud) (stopped : Bool)
    (h : s.consumer ≠ ConsumerPc.done) :
    (step s (Sched.consumer stopped)).consumer ≠ s.consumer := by
  cases hcs : s.consumer with
  | loopTest => cases stopped <;> simp [step, hcs]
  | tryLock => by_cases hm : s.cloud_mutex_ = none <;> simp [step, hcs, hm]
  | swap => simp [step, hcs]
  | unlock => simp [step, hcs]
  | draw => simp [step, hcs]
  | isRunning => simp [step, hcs]
  | sleep => simp [step, hcs]
  | stop => simp [step, hcs]
  | done => exact absurd hcs h

/-- C2: in every state reached by an interleaving of the statements of the grabber
threads in `cloud_callback` and of the thread of `run`:
a grabber thread and the thread of `run` are never inside their critical sections at the
same time (nor are two grabber threads);
a statement that reads or writes `cloud_` (the assignment of line 90, the swap of line
131) is executed only by the thread that holds `cloud_mutex_`, and no other statement
changes `cloud_`;
the thread of `run` becomes the holder of the mutex only by its `try_lock ()`;
and the thread of `run` never waits: until it has returned each of its steps moves it to
another statement, the `try_lock ()` included, whoever holds the mutex. -/
theorem mutex_guarded_handoff (acts : List (Sched Cloud)) :
    (∀ i, ((exec acts).producer i).inCritical = true →
      (exec acts).consumer.inCritical = false) ∧
    (∀ i j, i ≠ j → ((exec acts).producer i).inCritical = true →
      ((exec acts).producer j).inCritical = false) ∧
    (∀ a, accessesSlot (exec acts) a = true → (exec acts).cloud_mutex_ = some a.thread) ∧
    (∀ a, (step (exec acts) a).cloud_ ≠ (exec acts).cloud_ →
      accessesSlot (exec acts) a = true) ∧
    (∀ a, (step (exec acts) a).cloud_mutex_ = some Thread.consumer →
      (exec acts).cloud_mutex_ ≠ some Thread.consumer →
      a.thread = Thread.consumer ∧ (exec acts).consumer = ConsumerPc.tryLock) ∧
    (∀ stopped, (exec acts).consumer ≠ ConsumerPc.done →
      (step (exec acts) (Sched.consumer stopped)).consumer ≠ (exec acts).consumer) := by
  obtain ⟨hp, hc⟩ := inv_exec acts
  refine ⟨fun i hi => ?_, fun i j hij hi => ?_, fun a ha => ?_,
    fun a h => cloud_changes_only_by_access _ a h,
    fun a h h0 => consumer_acquires_by_tryLock _ a h h0,
    fun stopped h => consumer_never_waits _ stopped h⟩
  · have hm := (hp i).mp hi
    cases hcc : (exec acts).consumer.inCritical
    · rfl
    · have := hc.mp hcc
      rw [hm] at this
      simp at this
  · have hm := (hp i).mp hi
    cases hcc : ((exec acts).producer j).inCritical
    · rfl
    · have := (hp j).mp hcc
      rw [hm] at this
      simp only [Option.some.injEq, Thread.producer.injEq] at this
      exact absurd this hij
  · cases a with
    | producer i c =>
      apply (hp i).mp
      cases hpi : (exec acts).producer i <;> simp [accessesSlot, hpi] at ha
      rfl
    | consumer stopped =>
      apply hc.mp
      cases hcs : (exec acts).consumer <;> simp [accessesSlot, hcs] at ha
      rfl

/-- Witness for C2: grabber thread 0 enters `cloud_callback` with cloud 1 and takes the
mutex; the thread of `run` then fails its `try_lock ()`, is not in its critical section,
and goes on to the drawing step without waiting. -/
theorem mutex_guarded_handoff_witness :
    ((exec ([Sched.producer 0 (some 1), Sched.producer 0 none, Sched.consumer false,
        Sched.consumer false] : List (Sched Nat))).producer 0).inCritical = true ∧
    (exec ([Sched.producer 0 (some 1), Sched.producer 0 none, Sched.consumer false,
        Sched.consumer false] : List (Sched Nat))).consumer = ConsumerPc.draw ∧
    (exec ([Sched.producer 0 (some 1), Sched.producer 0 none, Sched.consumer false,
        Sched.consumer false] : List (Sched Nat))).consumer.inCritical = false :=
  ⟨by decide, by decide,
    (mutex_guarded_handoff ([Sched.producer 0 (some 1), Sched.producer 0 none,
      Sched.consumer false, Sched.consumer false] : List (Sched Nat))).1 0 (by decide)⟩

/-- In every reachable state in which the thread of `run` is about to call `try_lock ()`
or to swap, its local `cloud` is null. -/
theorem local_cloud_null_before_swap (acts : List (Sched Cloud)) :
    (exec acts).consumer = ConsumerPc.tryLock ∨ (exec acts).consumer = ConsumerPc.swap →
      (exec acts).cloud = none := by
  induction acts using List.reverseRecOn with
  | nil => intro h; simp [exec, System.init] at h
  | append_singleton l a ih =>
    have e : exec (l ++ [a]) = step (exec l) a := by simp [exec, List.foldl_append]
    rw [e]
    cases a with
    | producer i c =>
      cases hpi : (exec l).producer i with
      | idle => simpa [step, hpi] using ih
      | lock c0 =>
        by_cases hm : (exec l).cloud_mutex_ = none
        · simpa [step, hpi, hm] using ih
        · simpa [step, hpi, hm] using ih
      | assign c0 => simpa [step, hpi] using ih
      | unlock => simpa [step, hpi] using ih
    | consumer stopped =>
      cases hcs : (exec l).consumer with
      | loopTest => cases stopped <;> simp [step, hcs]
      | tryLock =>
        have h0 := ih (Or.inl hcs)
        by_cases hm : (exec l).cloud_mutex_ = none <;> simp [step, hcs, hm, h0]
      | swap => simp [step, hcs]
      | unlock => simp [step, hcs]
      | draw => simp [step, hcs]
      | isRunning => simp [step, hcs]
      | sleep => simp [step, hcs]
      | stop => simp [step, hcs]
      | done => simp [step, hcs]

/-- The sequential model agrees with the interleaving model: in every reachable state,
the assignment of line 90 acts on the slot as `cloud_callback`, the swap of line 131
acts on the slot and the local cloud as `take` with a successful `try_lock ()`, and a
failed `try_lock ()` as `take` with a failed one. -/
theorem step_agrees_with_sequential (acts : List (Sched Cloud)) :
    (∀ i c c0, (exec acts).producer i = ProducerPc.assign c0 →
      (⟨(step (exec acts) (Sched.producer i c)).cloud_⟩ : SimpleHDLViewer Cloud)
        = cloud_callback ⟨(exec acts).cloud_⟩ c0) ∧
    (∀ b, (exec acts).consumer = ConsumerPc.swap →
      ((⟨(step (exec acts) (Sched.consumer b)).cloud_⟩ : SimpleHDLViewer Cloud),
          (step (exec acts) (Sched.consumer b)).cloud)
        = take ⟨(exec acts).cloud_⟩ true) ∧
    (∀ b, (exec acts).consumer = ConsumerPc.tryLock → (exec acts).cloud_mutex_ ≠ none →
      ((⟨(step (exec acts) (Sched.consumer b)).cloud_⟩ : SimpleHDLViewer Cloud),
          (step (exec acts) (Sched.consumer b)).cloud)
        = take ⟨(exec acts).cloud_⟩ false) := by
  refine ⟨fun i c c0 h => ?_, fun b h => ?_, fun b h hm => ?_⟩
  · simp [step, h, cloud_callback]
  · have h0 := local_cloud_null_before_swap acts (Or.inr h)
    simp [step, h, take, h0]
  · have h0 := local_cloud_null_before_swap acts (Or.inl h)
    simp [step, h, take, h0, hm]

end HdlViewerSimple
